import Mathlib

/-!
Verification of the openclaude protocol-translation engine against its
specification.  The TypeScript sources are shallowly embedded as executable
Lean definitions: request conversion, streaming reconstruction, the model
router, the TTL cache, the bracket-scan parser of search results and the
batch engine.  Theorems at the end of the file settle the specified claims.
-/

/- ===== Characters that the hygiene rules of this development spell via
   escape codes: left and right curly braces and the apostrophe. ===== -/

def lbrace : Char := '\x7b'

def rbrace : Char := '\x7d'

def sLbrace : String := String.singleton lbrace

def sRbrace : String := String.singleton rbrace

def apos : String := String.singleton '\x27'

/- ===== JSON values =====
   Model of the JavaScript JSON data manipulated by the adapter.  Numbers are
   restricted to integers; every concrete JSON string handled by the claims
   contains no fractional numerals. -/

/-- JSON value as produced by the JavaScript runtime function JSON.parse. -/
inductive Json where
  | null : Json
  | bool (b : Bool) : Json
  | num (n : Int) : Json
  | str (s : String) : Json
  | arr (elems : List Json) : Json
  | obj (fields : List (String × Json)) : Json
deriving Repr

/-- Truthiness of a JSON value under JavaScript coercion rules. -/
def jsTruthyJson : Json → Bool
  | Json.null => false
  | Json.bool b => b
  | Json.num n => n ≠ 0
  | Json.str s => s ≠ ""
  | Json.arr _ => true
  | Json.obj _ => true

/-- Truthiness of an optional string: undefined and the empty string are falsy. -/
def truthyStr : Option String → Bool
  | some s => s ≠ ""
  | none => false

/-- JavaScript expression o or-else dflt for an optional string. -/
def jsStrOr (o : Option String) (dflt : String) : String :=
  match o with
  | some s => if s = "" then dflt else s
  | none => dflt

/-- JavaScript expression o or-else dflt for an optional number: zero is falsy. -/
def jsNumOr (o : Option Nat) (dflt : Nat) : Nat :=
  match o with
  | some n => if n = 0 then dflt else n
  | none => dflt

/- ===== A model of JSON.parse ===== -/

/-- JSON whitespace recognized between tokens. -/
def isJsonWs (c : Char) : Bool :=
  c = ' ' || c = '\t' || c = '\n' || c = '\r'

/-- Skip leading JSON whitespace. -/
def skipWs : List Char → List Char
  | [] => []
  | c :: cs => if isJsonWs c then skipWs cs else c :: cs

/-- Value of a hexadecimal digit. -/
def hexVal (c : Char) : Option Nat :=
  if '0' ≤ c ∧ c ≤ '9' then some (c.toNat - '0'.toNat)
  else if 'a' ≤ c ∧ c ≤ 'f' then some (c.toNat - 'a'.toNat + 10)
  else if 'A' ≤ c ∧ c ≤ 'F' then some (c.toNat - 'A'.toNat + 10)
  else none

/-- Parse the body of a JSON string literal, the opening quote already
consumed; returns the decoded string and the rest of the input. -/
def parseStrAux : Nat → List Char → List Char → Option (String × List Char)
  | 0, _, _ => none
  | _ + 1, _, [] => none
  | fuel + 1, acc, c :: cs =>
    if c = '"' then some (String.mk acc.reverse, cs)
    else if c = '\\' then
      match cs with
      | [] => none
      | e :: cs2 =>
        if e = '"' then parseStrAux fuel ('"' :: acc) cs2
        else if e = '\\' then parseStrAux fuel ('\\' :: acc) cs2
        else if e = '/' then parseStrAux fuel ('/' :: acc) cs2
        else if e = 'b' then parseStrAux fuel ('\x08' :: acc) cs2
        else if e = 'f' then parseStrAux fuel ('\x0c' :: acc) cs2
        else if e = 'n' then parseStrAux fuel ('\n' :: acc) cs2
        else if e = 'r' then parseStrAux fuel ('\r' :: acc) cs2
        else if e = 't' then parseStrAux fuel ('\t' :: acc) cs2
        else if e = 'u' then
          match cs2 with
          | h1 :: h2 :: h3 :: h4 :: cs3 =>
            match hexVal h1, hexVal h2, hexVal h3, hexVal h4 with
            | some a, some b, some c3, some d =>
              let n := ((a * 16 + b) * 16 + c3) * 16 + d
              if h : n.isValidChar then
                parseStrAux fuel (Char.ofNatAux n h :: acc) cs3
              else none
            | _, _, _, _ => none
          | _ => none
        else none
    else parseStrAux fuel (c :: acc) cs

/-- Consume an expected literal suffix of characters. -/
def expectChars : List Char → List Char → Option (List Char)
  | [], cs => some cs
  | e :: es, c :: cs => if c = e then expectChars es cs else none
  | _ :: _, [] => none

/-- Parse an integer numeral, first character already inspected. -/
def parseIntLit (cs : List Char) : Option (Int × List Char) :=
  let (neg, cs1) :=
    match cs with
    | '-' :: rest => (true, rest)
    | _ => (false, cs)
  let digits := cs1.takeWhile Char.isDigit
  let rest := cs1.dropWhile Char.isDigit
  if digits = [] then none
  else
    let v : Nat := digits.foldl (fun a c => a * 10 + (c.toNat - '0'.toNat)) 0
    -- fractional and exponent parts are not modelled; the byte after the
    -- digits must not extend the numeral
    match rest with
    | '.' :: _ => none
    | 'e' :: _ => none
    | 'E' :: _ => none
    | _ => some (if neg then -(v : Int) else (v : Int), rest)

mutual

/-- Parse one JSON value; fuel bounds the recursion depth and is chosen
large enough for every input the adapter handles. -/
def parseValue : Nat → List Char → Option (Json × List Char)
  | 0, _ => none
  | fuel + 1, cs =>
    match skipWs cs with
    | [] => none
    | c :: rest =>
      if c = '"' then
        match parseStrAux (rest.length + 1) [] rest with
        | some (s, r) => some (Json.str s, r)
        | none => none
      else if c = '[' then
        match skipWs rest with
        | [] => none
        | c2 :: r2 =>
          if c2 = ']' then some (Json.arr [], r2)
          else
            match parseElems fuel (c2 :: r2) with
            | some (vs, r) => some (Json.arr vs, r)
            | none => none
      else if c = lbrace then
        match skipWs rest with
        | [] => none
        | c2 :: r2 =>
          if c2 = rbrace then some (Json.obj [], r2)
          else
            match parseFields fuel (c2 :: r2) with
            | some (fs, r) => some (Json.obj fs, r)
            | none => none
      else if c = 't' then
        match expectChars ['r', 'u', 'e'] rest with
        | some r => some (Json.bool true, r)
        | none => none
      else if c = 'f' then
        match expectChars ['a', 'l', 's', 'e'] rest with
        | some r => some (Json.bool false, r)
        | none => none
      else if c = 'n' then
        match expectChars ['u', 'l', 'l'] rest with
        | some r => some (Json.null, r)
        | none => none
      else if c = '-' || c.isDigit then
        match parseIntLit (c :: rest) with
        | some (n, r) => some (Json.num n, r)
        | none => none
      else none

/-- Parse the remaining comma-separated elements of a JSON array, up to and
including the closing bracket. -/
def parseElems : Nat → List Char → Option (List Json × List Char)
  | 0, _ => none
  | fuel + 1, cs =>
    match parseValue fuel cs with
    | none => none
    | some (v, rest) =>
      match skipWs rest with
      | [] => none
      | c :: r2 =>
        if c = ',' then
          match parseElems fuel r2 with
          | some (vs, r) => some (v :: vs, r)
          | none => none
        else if c = ']' then some ([v], r2)
        else none

/-- Parse the remaining fields of a JSON object, up to and including the
closing brace. -/
def parseFields : Nat → List Char → Option (List (String × Json) × List Char)
  | 0, _ => none
  | fuel + 1, cs =>
    match skipWs cs with
    | [] => none
    | c :: rest =>
      if c = '"' then
        match parseStrAux (rest.length + 1) [] rest with
        | none => none
        | some (k, r1) =>
          match skipWs r1 with
          | ':' :: r2 =>
            match parseValue fuel r2 with
            | none => none
            | some (v, r3) =>
              match skipWs r3 with
              | [] => none
              | c2 :: r4 =>
                if c2 = ',' then
                  match parseFields fuel r4 with
                  | some (fs, r) => some ((k, v) :: fs, r)
                  | none => none
                else if c2 = rbrace then some ([(k, v)], r4)
                else none
          | _ => none
      else none

end

/-- Model of the JavaScript runtime function JSON.parse; returns none where
the runtime would throw a SyntaxError. -/
def jsonParse (s : String) : Option Json :=
  match parseValue (4 * s.length + 16) s.data with
  | some (v, rest) => if skipWs rest = [] then some v else none
  | none => none

/- ===== A model of JSON.stringify ===== -/

/-- Escape one character the way JSON.stringify does. -/
def escapeJsonChar (c : Char) : List Char :=
  if c = '"' then ['\\', '"']
  else if c = '\\' then ['\\', '\\']
  else if c = '\n' then ['\\', 'n']
  else if c = '\r' then ['\\', 'r']
  else if c = '\t' then ['\\', 't']
  else if c = '\x08' then ['\\', 'b']
  else if c = '\x0c' then ['\\', 'f']
  else if c.toNat < 32 then
    let lo := c.toNat % 16
    let hi := c.toNat / 16
    let hexDigit := fun (n : Nat) => if n < 10 then Char.ofNat ('0'.toNat + n)
      else Char.ofNat ('a'.toNat + n - 10)
    ['\\', 'u', '0', '0', hexDigit hi, hexDigit lo]
  else [c]

/-- Render a string as a JSON string literal. -/
def renderJsonString (s : String) : String :=
  "\"" ++ String.mk (s.data.flatMap escapeJsonChar) ++ "\""

mutual

/-- Model of the JavaScript runtime function JSON.stringify on JSON values. -/
def Json.render : Json → String
  | Json.null => "null"
  | Json.bool b => if b then "true" else "false"
  | Json.num n => toString n
  | Json.str s => renderJsonString s
  | Json.arr xs => "[" ++ renderArr xs ++ "]"
  | Json.obj fs => sLbrace ++ renderObj fs ++ sRbrace

/-- Render array elements, comma separated. -/
def renderArr : List Json → String
  | [] => ""
  | [x] => Json.render x
  | x :: y :: rest => Json.render x ++ "," ++ renderArr (y :: rest)

/-- Render object fields, comma separated. -/
def renderObj : List (String × Json) → String
  | [] => ""
  | [(k, v)] => renderJsonString k ++ ":" ++ Json.render v
  | (k, v) :: f :: rest =>
    renderJsonString k ++ ":" ++ Json.render v ++ "," ++ renderObj (f :: rest)

end

/- ===== JavaScript string helpers ===== -/

/-- Model of the JavaScript method String.prototype.includes. -/
def jsIncludes (s sub : String) : Bool :=
  let rec go : List Char → Bool
    | [] => sub.data.isPrefixOf []
    | c :: cs => sub.data.isPrefixOf (c :: cs) || go cs
  go s.data

/-- JavaScript whitespace for String.prototype.trim. -/
def isJsWs (c : Char) : Bool :=
  c = ' ' || c = '\t' || c = '\n' || c = '\r' || c = '\x0c' || c = '\x0b'

/-- Model of the JavaScript method String.prototype.trim. -/
def jsTrim (s : String) : String :=
  String.mk (((s.data.dropWhile isJsWs).reverse.dropWhile isJsWs).reverse)

/-- Recursion core of sliceChars; the fuel is an upper bound on the number
of slices, each loop iteration consuming at least one character. -/
def sliceCharsAux (step : Nat) : Nat → List Char → List (List Char)
  | _, [] => []
  | 0, _ :: _ => []
  | fuel + 1, c :: cs =>
    if step = 0 then []
    else (c :: cs).take step :: sliceCharsAux step fuel ((c :: cs).drop step)

/-- Cut a list of characters into consecutive slices of the given stride,
mirroring the loops for-i-step in the stream converter. -/
def sliceChars (step : Nat) (cs : List Char) : List (List Char) :=
  sliceCharsAux step cs.length cs

/-- String form of sliceChars: the fixed-size slices a text is streamed in. -/
def jsSlices (step : Nat) (s : String) : List String :=
  (sliceChars step s.data).map String.mk

/-- Index of the last occurrence of a character, as String.prototype.lastIndexOf. -/
def lastIndexOfChar (c : Char) (cs : List Char) : Option Nat :=
  let rec go : List Char → Nat → Option Nat → Option Nat
    | [], _, best => best
    | x :: xs, i, best => go xs (i + 1) (if x = c then some i else best)
  go cs 0 none

/- ===== Protocol-A (Claude) request data model =====
   Embeds the shapes of BetaMessageCreateRequest and its content blocks as
   used by the converter sources. -/

/-- Source of an image block. -/
inductive ImageSource where
  | base64 (media_type data : String)
  | url (u : String)
  | other
deriving Repr, DecidableEq

/-- Source of a document block. -/
inductive DocSource where
  | base64 (media_type : String)
  | other
deriving Repr, DecidableEq

/-- Content of a tool_result block: either a plain string or a JSON value
standing for an array or object that would be stringified. -/
inductive ToolResultContent where
  | str (s : String)
  | json (j : Json)
deriving Repr

/-- Protocol-A content block variants handled by the converter. -/
inductive ClaudeBlock where
  | text (t : String)
  | image (source : ImageSource)
  | document (source : DocSource)
  | thinking (t : String)
  | tool_use (id name : String) (input : Json)
  | tool_result (tool_use_id : String) (content : ToolResultContent)
deriving Repr

/-- Message content: a plain string or an array of content blocks. -/
inductive ClaudeContent where
  | str (s : String)
  | blocks (bs : List ClaudeBlock)
deriving Repr

/-- Conversation role of a protocol-A message. -/
inductive ClaudeRole where
  | user
  | assistant
deriving Repr, DecidableEq

/-- Protocol-A conversation message. -/
structure ClaudeMessage where
  role : ClaudeRole
  content : ClaudeContent
deriving Repr

/-- System prompt: a plain string or an array of text blocks. -/
inductive SystemPrompt where
  | str (s : String)
  | blocks (texts : List String)
deriving Repr, DecidableEq

/-- Tool definition attached to a protocol-A request; type is present on
server tool entries such as the web-search tool, input_schema on function
tools. -/
structure ClaudeTool where
  name : String
  type : Option String
  description : Option String
  input_schema : Option Json
deriving Repr

/-- Protocol-A request; thinking models the truthiness of the extended
reasoning flag inspected by the router. -/
structure ClaudeRequest where
  model : String
  messages : List ClaudeMessage
  system : Option SystemPrompt
  max_tokens : Nat
  temperature : Option Rat
  top_p : Option Rat
  stop_sequences : List String
  tools : List ClaudeTool
  stream : Option Bool
  thinking : Bool
deriving Repr

/-- Model mapping entry from the configuration file. -/
structure ModelConfig where
  claudeModelName : String
  openaiModelName : String
  maxTokens : Nat
  description : Option String
deriving Repr, DecidableEq

/- ===== Protocol-B (OpenAI) request data model ===== -/

/-- Role of a backend chat message. -/
inductive OpenAIRole where
  | system
  | user
  | assistant
  | tool
deriving Repr, DecidableEq

/-- Part of a backend multi-part message content. -/
inductive OpenAIContentPart where
  | text (t : String)
  | image_url (url detail : String)
deriving Repr, DecidableEq

/-- Backend message content: the JavaScript sources may store a plain
string, an array of parts, or push the raw protocol-A system value through
unchanged; the rawSystem constructor models that last, dynamically typed
case. -/
inductive OpenAIContent where
  | str (s : String)
  | parts (ps : List OpenAIContentPart)
  | rawSystem (sp : SystemPrompt)
deriving Repr, DecidableEq

/-- Backend tool call record (type is always the string function). -/
structure OpenAIToolCall where
  id : String
  name : String
  arguments : String
deriving Repr, DecidableEq

/-- Backend chat message. -/
structure OpenAIMessage where
  role : OpenAIRole
  content : OpenAIContent
  tool_calls : Option (List OpenAIToolCall)
  tool_call_id : Option String
deriving Repr, DecidableEq

/-- Backend tool definition. -/
structure OpenAITool where
  name : String
  description : String
  parameters : Json
deriving Repr

/-- Backend chat completion request built by the request converter. -/
structure OpenAIChatCompletionRequest where
  model : String
  messages : List OpenAIMessage
  max_tokens : Nat
  temperature : Option Rat
  top_p : Option Rat
  stop : Option (List String)
  stream : Bool
  tools : Option (List OpenAITool)
  tool_choice : Option String
deriving Repr

/- ===== RequestConverter ===== -/

/-- Extract the text of a text block. -/
def textOfBlock : ClaudeBlock → Option String
  | ClaudeBlock.text t => some t
  | _ => none

/-- Predicate for block.type being the tag tool_use. -/
def isToolUse : ClaudeBlock → Bool
  | ClaudeBlock.tool_use _ _ _ => true
  | _ => false

/-- Predicate for block.type being the tag tool_result. -/
def isToolResult : ClaudeBlock → Bool
  | ClaudeBlock.tool_result _ _ => true
  | _ => false

/-- Predicate for block.type being the tag text. -/
def isTextBlock : ClaudeBlock → Bool
  | ClaudeBlock.text _ => true
  | _ => false

/-- Stringify a tool_result content the way convertMessage does: strings
pass through, anything else goes through JSON.stringify. -/
def stringifyToolResultContent : ToolResultContent → String
  | ToolResultContent.str s => s
  | ToolResultContent.json j => j.render

/-- Backend tool call built from a tool_use block, with the input object
serialized by JSON.stringify. -/
def toolCallOf : ClaudeBlock → Option OpenAIToolCall
  | ClaudeBlock.tool_use id name input => some ⟨id, name, input.render⟩
  | _ => none

/-- Fields of a tool_result block, when the block is one. -/
def toolResultFields : ClaudeBlock → Option (String × ToolResultContent)
  | ClaudeBlock.tool_result tid c => some (tid, c)
  | _ => none

/-- Backend content parts pushed for one protocol-A block by
RequestConverter.convertContent; tool_use and tool_result blocks are
handled at the message level and contribute nothing here. -/
def convertBlockParts (block : ClaudeBlock) : List OpenAIContentPart :=
  match block with
  | ClaudeBlock.text t => [OpenAIContentPart.text t]
  | ClaudeBlock.image src =>
    let imageUrl :=
      match src with
      | ImageSource.base64 mt data => "data:" ++ mt ++ ";base64," ++ data
      | ImageSource.url u => u
      | ImageSource.other => ""
    if imageUrl ≠ "" then [OpenAIContentPart.image_url imageUrl "auto"] else []
  | ClaudeBlock.document src =>
    let docText :=
      match src with
      | DocSource.base64 mt => "[Document: " ++ mt ++ "]"
      | DocSource.other => "[Document content]"
    [OpenAIContentPart.text docText]
  | ClaudeBlock.thinking t => [OpenAIContentPart.text ("[Thinking: " ++ t ++ "]")]
  | ClaudeBlock.tool_use _ _ _ => []
  | ClaudeBlock.tool_result _ _ => []

/-- RequestConverter.convertContent. -/
def convertContent : ClaudeContent → OpenAIContent
  | ClaudeContent.str s => OpenAIContent.str s
  | ClaudeContent.blocks bs => OpenAIContent.parts (bs.flatMap convertBlockParts)

/-- Map a protocol-A role onto the backend user or assistant role. -/
def convertRole : ClaudeRole → OpenAIRole
  | ClaudeRole.user => OpenAIRole.user
  | ClaudeRole.assistant => OpenAIRole.assistant

/-- RequestConverter.convertMessage: string content passes through; a
message with tool_use blocks becomes an assistant message with tool calls;
otherwise a message with tool_result blocks becomes one tool message built
from the first tool_result block; otherwise the content parts conversion
applies. -/
def convertMessage (claudeMessage : ClaudeMessage) : OpenAIMessage :=
  match claudeMessage.content with
  | ClaudeContent.str s =>
    { role := convertRole claudeMessage.role
      content := OpenAIContent.str s
      tool_calls := none
      tool_call_id := none }
  | ClaudeContent.blocks blocks =>
    -- filtering for tool_use blocks and converting them coincide, since
    -- toolCallOf succeeds exactly on the isToolUse blocks
    let toolUseCalls := blocks.filterMap toolCallOf
    let toolResults := blocks.filterMap toolResultFields
    if toolUseCalls.length > 0 then
      let textBlocks := blocks.filterMap textOfBlock
      let content :=
        if textBlocks.length > 0 then String.intercalate "\n" textBlocks else ""
      { role := OpenAIRole.assistant
        content := OpenAIContent.str content
        tool_calls := some toolUseCalls
        tool_call_id := none }
    else
      match toolResults with
      | (tid, c) :: _ =>
        { role := OpenAIRole.tool
          content := OpenAIContent.str (stringifyToolResultContent c)
          tool_calls := none
          tool_call_id := some tid }
      | [] =>
        { role := convertRole claudeMessage.role
          content := convertContent (ClaudeContent.blocks blocks)
          tool_calls := none
          tool_call_id := none }

/-- Default parameters object supplied when a tool has no truthy schema. -/
def defaultToolSchema : Json :=
  Json.obj [("type", Json.str "object"), ("properties", Json.obj [])]

/-- RequestConverter.convertTool. -/
def convertTool (claudeTool : ClaudeTool) : OpenAITool :=
  { name := claudeTool.name
    description := jsStrOr claudeTool.description ""
    parameters :=
      match claudeTool.input_schema with
      | some js => if jsTruthyJson js then js else defaultToolSchema
      | none => defaultToolSchema }

/-- Truthiness of the protocol-A system field: an absent or empty-string
system is falsy, an array is always truthy. -/
def systemTruthy : Option SystemPrompt → Bool
  | none => false
  | some (SystemPrompt.str s) => s ≠ ""
  | some (SystemPrompt.blocks _) => true

/-- Content value pushed for the system message: the raw request value. -/
def systemContentOf : SystemPrompt → OpenAIContent
  | SystemPrompt.str s => OpenAIContent.str s
  | sp => OpenAIContent.rawSystem sp

/-- Hard ceiling applied to max_tokens for OpenAI API compatibility. -/
def absoluteMaxTokens : Nat := 8192

/-- RequestConverter.convertClaudeToOpenAI. -/
def convertClaudeToOpenAI (claudeRequest : ClaudeRequest)
    (modelConfig : ModelConfig) : OpenAIChatCompletionRequest :=
  let systemMessages : List OpenAIMessage :=
    if systemTruthy claudeRequest.system then
      match claudeRequest.system with
      | some sp =>
        [{ role := OpenAIRole.system
           content := systemContentOf sp
           tool_calls := none
           tool_call_id := none }]
      | none => []
    else []
  let openAIMessages := systemMessages ++ claudeRequest.messages.map convertMessage
  let finalMaxTokens :=
    min (min claudeRequest.max_tokens modelConfig.maxTokens) absoluteMaxTokens
  let toolsPair : Option (List OpenAITool) × Option String :=
    if claudeRequest.tools.length > 0 then
      let validTools :=
        (claudeRequest.tools.filter (fun t => t.input_schema.isSome)).map convertTool
      if validTools.length > 0 then (some validTools, some "auto") else (none, none)
    else (none, none)
  { model := modelConfig.openaiModelName
    messages := openAIMessages
    max_tokens := finalMaxTokens
    temperature := claudeRequest.temperature
    top_p := claudeRequest.top_p
    stop :=
      if claudeRequest.stop_sequences.length > 0 then some claudeRequest.stop_sequences
      else none
    stream := claudeRequest.stream.getD false
    tools := toolsPair.1
    tool_choice := toolsPair.2 }

/- ===== Token calculator and model router =====
   The tokenizer itself (tiktoken) is an external collaborator; it enters
   the embedding as an opaque length function encodeLen from strings to
   token counts. -/

/-- Token contribution of one content block in calculateTokenCount. -/
def blockTokens (encodeLen : String → Nat) : ClaudeBlock → Nat
  | ClaudeBlock.text t => encodeLen t
  | ClaudeBlock.tool_use _ _ input => encodeLen input.render
  | ClaudeBlock.tool_result _ (ToolResultContent.str s) => encodeLen s
  | ClaudeBlock.tool_result _ (ToolResultContent.json j) => encodeLen j.render
  | _ => 0

/-- Token contribution of one message in calculateTokenCount. -/
def messageTokens (encodeLen : String → Nat) (m : ClaudeMessage) : Nat :=
  match m.content with
  | ClaudeContent.str s => encodeLen s
  | ClaudeContent.blocks bs => (bs.map (blockTokens encodeLen)).sum

/-- Token contribution of the system field in calculateTokenCount. -/
def systemTokens (encodeLen : String → Nat) : Option SystemPrompt → Nat
  | none => 0
  | some (SystemPrompt.str s) => encodeLen s
  | some (SystemPrompt.blocks texts) => (texts.map encodeLen).sum

/-- Token contribution of one tool definition in calculateTokenCount. -/
def toolTokens (encodeLen : String → Nat) (t : ClaudeTool) : Nat :=
  encodeLen (t.name ++ jsStrOr t.description "") +
    match t.input_schema with
    | some js => if jsTruthyJson js then encodeLen js.render else 0
    | none => 0

/-- calculateTokenCount from token-calculator.ts, summing message content,
system text and serialized tool schemas through the tokenizer. -/
def calculateTokenCount (encodeLen : String → Nat) (messages : List ClaudeMessage)
    (system : Option SystemPrompt) (tools : List ClaudeTool) : Nat :=
  (messages.map (messageTokens encodeLen)).sum +
    systemTokens encodeLen system +
    (tools.map (toolTokens encodeLen)).sum

/-- Router policy configuration. -/
structure RouterConfig where
  defaultModel : String
  longContext : Option String
  longContextThreshold : Option Nat
  webSearch : Option String
  background : Option String
  think : Option String
deriving Repr, DecidableEq

/-- Marker substring that identifies a web-search assistant system prompt. -/
def webSearchMarker : String :=
  "You are an assistant for performing a web search tool use"

/-- Condition one of the router: the tool list has exactly one entry, of the
web-search tool type with the web-search name. -/
def hasExactlyOneWebSearchTool (request : ClaudeRequest) : Bool :=
  request.tools.length = 1 &&
    (match request.tools with
     | [t] => t.type = some "web_search_20250305" && t.name = "web_search"
     | _ => false)

/-- System text assembled by the router before looking for the marker. -/
def routerSystemText : SystemPrompt → String
  | SystemPrompt.str s => s
  | SystemPrompt.blocks texts => String.intercalate " " texts

/-- Condition two of the router: the truthy system prompt contains the
web-search marker substring. -/
def hasWebSearchSystemIndicator (request : ClaudeRequest) : Bool :=
  match request.system with
  | none => false
  | some sp =>
    if systemTruthy (some sp) then jsIncludes (routerSystemText sp) webSearchMarker
    else false

/-- routeModel from router.ts: first-match-wins across web search, long
context, background tier and thinking mode, defaulting to the default
route; defaultModelConfig is received but not consulted by any rule. -/
def routeModel (encodeLen : String → Nat) (request : ClaudeRequest)
    (_defaultModelConfig : ModelConfig) (routerConfig : RouterConfig) : String :=
  let tokenCount :=
    calculateTokenCount encodeLen request.messages request.system request.tools
  if hasExactlyOneWebSearchTool request && hasWebSearchSystemIndicator request
      && truthyStr routerConfig.webSearch then
    routerConfig.webSearch.getD routerConfig.defaultModel
  else
    let longContextThreshold := jsNumOr routerConfig.longContextThreshold 60000
    if decide (tokenCount > longContextThreshold) && truthyStr routerConfig.longContext then
      routerConfig.longContext.getD routerConfig.defaultModel
    else if jsIncludes request.model "haiku" && truthyStr routerConfig.background then
      routerConfig.background.getD routerConfig.defaultModel
    else if request.thinking && truthyStr routerConfig.think then
      routerConfig.think.getD routerConfig.defaultModel
    else routerConfig.defaultModel

/- ===== MemoryStore: the ephemeral TTL cache =====
   Time is passed explicitly: now is the value Date.now() would return at
   the instant the operation runs, in milliseconds. -/

/-- Cache entry of the memory store. -/
structure CacheItem (α : Type) where
  value : α
  expireTime : Nat
deriving Repr, DecidableEq

/-- Keyed collection in insertion order with the JavaScript Map.set
semantics of update-in-place; also models plain objects indexed by
non-numeric string keys, whose iteration order is insertion order. -/
def MapSet {β : Type} : List (String × β) → String → β → List (String × β)
  | [], k, item => [(k, item)]
  | (k', item') :: rest, k, item =>
    if k' = k then (k, item) :: rest else (k', item') :: MapSet rest k item

/-- Map.get: first binding of the key. -/
def MapGet {β : Type} : List (String × β) → String → Option β
  | [], _ => none
  | (k', item') :: rest, k => if k' = k then some item' else MapGet rest k

/-- Map.delete: remove the binding of the key. -/
def MapDelete {β : Type} : List (String × β) → String → List (String × β)
  | [], _ => []
  | (k', item') :: rest, k =>
    if k' = k then MapDelete rest k else (k', item') :: MapDelete rest k

/-- Default TTL of the memory store: one hour in milliseconds. -/
def DEFAULT_TTL : Nat := 60 * 60 * 1000

/-- MemoryStore.set at time now: stores the value with expiry now plus ttl. -/
def storeSet {α : Type} (now : Nat) (store : List (String × CacheItem α))
    (key : String) (value : α) (ttl : Nat) : List (String × CacheItem α) :=
  MapSet store key ⟨value, now + ttl⟩

/-- MemoryStore.get at time now: absent keys yield undefined; an entry past
its expiry is deleted and yields undefined (lazy expiry); otherwise the
stored value is returned and the store is untouched. -/
def storeGet {α : Type} (now : Nat) (store : List (String × CacheItem α))
    (key : String) : Option α × List (String × CacheItem α) :=
  match MapGet store key with
  | none => (none, store)
  | some item =>
    if now > item.expireTime then (none, MapDelete store key)
    else (some item.value, store)

/- ===== parseSearchResult: the bracket scan ===== -/

/-- Backward scan of the bracket-matching loop in parseSearchResult: from
position i toward zero, closing brackets increase and opening brackets
decrease the depth; the position where the depth first returns to zero is
the matching opening bracket. -/
def bracketScan (cs : List Char) : Nat → Int → Option Nat
  | i, count =>
    let c := cs.getD i ' '
    if c = ']' then
      match i with
      | 0 => none
      | j + 1 => bracketScan cs j (count + 1)
    else if c = '[' then
      if count - 1 = 0 then some i
      else
        match i with
        | 0 => none
        | j + 1 => bracketScan cs j (count - 1)
    else
      match i with
      | 0 => none
      | j + 1 => bracketScan cs j count

/-- Outcome of parseSearchResult: Except.error models a JSON.parse throw
escaping the function, Except.ok none the two null returns, and a pair the
successful decomposition into query text and parsed links array. -/
def parseSearchResult (text : String) : Except Unit (Option (String × Json)) :=
  let cs := text.data
  match lastIndexOfChar ']' cs with
  | none => Except.ok none
  | some lastBracketIndex =>
    match bracketScan cs lastBracketIndex 0 with
    | none => Except.ok none
    | some firstBracketIndex =>
      let queryPart := jsTrim (String.mk (cs.take firstBracketIndex))
      let arrayPart :=
        String.mk ((cs.drop firstBracketIndex).take (lastBracketIndex + 1 - firstBracketIndex))
      match jsonParse arrayPart with
      | none => Except.error ()
      | some linksArray => Except.ok (some (queryPart, linksArray))

/- ===== Stream reconstructor =====
   Embedding of ResponseConverter.convertOpenAIStreamToClaude.  The
   generator first drains the whole backend stream, so the embedding is a
   pure function from the collected chunk list to the emitted protocol-A
   event list.  Random identifier generation is modelled by a supply of
   fresh strings carried in the context. -/

/-- Function fragment of a backend tool-call delta. -/
structure FnDelta where
  name : Option String
  arguments : Option String
deriving Repr, DecidableEq

/-- Backend tool-call delta fragment. -/
structure ToolCallDelta where
  index : Option Nat
  id : Option String
  func : Option FnDelta
deriving Repr, DecidableEq

/-- Delta carried by a backend stream choice. -/
structure StreamDelta where
  content : Option String
  tool_calls : Option (List ToolCallDelta)
deriving Repr, DecidableEq

/-- Backend stream choice. -/
structure StreamChoice where
  delta : StreamDelta
  finish_reason : Option String
deriving Repr, DecidableEq

/-- Usage record attached to a backend chunk. -/
structure ChunkUsage where
  prompt_tokens : Option Nat
  completion_tokens : Option Nat
deriving Repr, DecidableEq

/-- Backend stream chunk. -/
structure StreamChunk where
  choices : List StreamChoice
  usage : Option ChunkUsage
deriving Repr, DecidableEq

/-- Accumulation buffer entry for one tool call index. -/
structure ToolCallBuf where
  id : String
  name : String
  arguments : String
deriving Repr, DecidableEq

/-- Content block descriptor carried by a content_block_start event; a
tool_use start always carries the empty object as input. -/
inductive BlockStartInfo where
  | text
  | tool_use (id name : String)
deriving Repr, DecidableEq

/-- Delta descriptor carried by a content_block_delta event. -/
inductive BlockDeltaInfo where
  | text_delta (t : String)
  | input_json_delta (partial_json : String)
deriving Repr, DecidableEq

/-- Protocol-A stream event as serialized by the converter. -/
inductive ClaudeEvent where
  | message_start (id claudeModel : String)
  | content_block_start (index : Nat) (content_block : BlockStartInfo)
  | content_block_delta (index : Nat) (delta : BlockDeltaInfo)
  | content_block_stop (index : Nat)
  | message_delta (stop_reason : String) (input_tokens output_tokens : Nat)
  | message_stop
deriving Repr, DecidableEq

/-- Context of one conversion run: the generated message id, the requested
protocol-A model name, and the supply of random suffixes consumed by
generated call identifiers. -/
structure StreamCtx where
  messageId : String
  claudeModel : String
  supply : Nat → String

/-- Mutable state of the conversion loop. -/
structure StreamState where
  hasStarted : Bool
  totalInputTokens : Nat
  totalOutputTokens : Nat
  activeContentBlocks : List Nat
  toolCallsBuffer : List (String × ToolCallBuf)
  hasFinished : Bool
  ctr : Nat
deriving Repr

/-- State at the top of convertOpenAIStreamToClaude. -/
def initialStreamState : StreamState :=
  { hasStarted := false
    totalInputTokens := 0
    totalOutputTokens := 0
    activeContentBlocks := []
    toolCallsBuffer := []
    hasFinished := false
    ctr := 0 }

/-- Process one tool-call delta fragment against the buffer: create the
entry on first sight of its index with the fragment id or a generated one,
then apply the dead id update, the name overwrite and the argument append,
exactly as the chunk loop does. -/
def applyToolCallDelta (supply : Nat → String)
    (st : List (String × ToolCallBuf) × Nat) (d : ToolCallDelta) :
    List (String × ToolCallBuf) × Nat :=
  let key := "tool_" ++ toString (d.index.getD 0)
  let (buf, ctr) := st
  let (buf1, ctr1) :=
    match MapGet buf key with
    | some _ => (buf, ctr)
    | none =>
      if truthyStr d.id then (MapSet buf key ⟨d.id.getD "", "", ""⟩, ctr)
      else (MapSet buf key ⟨"call_" ++ supply ctr, "", ""⟩, ctr + 1)
  -- update of the id from a later truthy fragment id, guarded by the
  -- buffered id being empty; the guard can never hold after creation
  let buf2 :=
    if truthyStr d.id then
      match MapGet buf1 key with
      | some tb =>
        if tb.id = "" then MapSet buf1 key { tb with id := d.id.getD "" } else buf1
      | none => buf1
    else buf1
  let buf3 :=
    match d.func with
    | some f =>
      if truthyStr f.name then
        match MapGet buf2 key with
        | some tb => MapSet buf2 key { tb with name := f.name.getD "" }
        | none => buf2
      else buf2
    | none => buf2
  let buf4 :=
    match d.func with
    | some f =>
      if truthyStr f.arguments then
        match MapGet buf3 key with
        | some tb =>
          MapSet buf3 key { tb with arguments := tb.arguments ++ f.arguments.getD "" }
        | none => buf3
      else buf3
    | none => buf3
  (buf4, ctr1)

/-- One iteration of the chunk loop: emits the events yielded for this
chunk and returns the updated state. -/
def processChunk (ctx : StreamCtx) (s0 : StreamState) (chunk : StreamChunk) :
    List ClaudeEvent × StreamState :=
  let startEvents :=
    if s0.hasStarted then []
    else [ClaudeEvent.message_start ctx.messageId ctx.claudeModel]
  let s := { s0 with hasStarted := true }
  let choice := chunk.choices.head?
  let contentText : Option String :=
    match choice with
    | some c =>
      match c.delta.content with
      | some t => if t ≠ "" then some t else none
      | none => none
    | none => none
  let (textEvents, s) :=
    match contentText with
    | some t =>
      if s.activeContentBlocks.contains 0 then
        ([ClaudeEvent.content_block_delta 0 (BlockDeltaInfo.text_delta t)], s)
      else
        ([ClaudeEvent.content_block_start 0 BlockStartInfo.text,
          ClaudeEvent.content_block_delta 0 (BlockDeltaInfo.text_delta t)],
         { s with activeContentBlocks := s.activeContentBlocks ++ [0] })
    | none => ([], s)
  let s :=
    match choice with
    | some c =>
      match c.delta.tool_calls with
      | some tcs =>
        let (buf, ctr) := tcs.foldl (applyToolCallDelta ctx.supply) (s.toolCallsBuffer, s.ctr)
        { s with toolCallsBuffer := buf, ctr := ctr }
      | none => s
    | none => s
  let s :=
    match chunk.usage with
    | some u =>
      { s with
        totalInputTokens := jsNumOr u.prompt_tokens s.totalInputTokens
        totalOutputTokens := jsNumOr u.completion_tokens s.totalOutputTokens }
    | none => s
  let s :=
    match choice with
    | some c => if truthyStr c.finish_reason then { s with hasFinished := true } else s
    | none => s
  (startEvents ++ textEvents, s)

/-- The chunk loop over the collected chunk list. -/
def processChunks (ctx : StreamCtx) (s : StreamState) :
    List StreamChunk → List ClaudeEvent × StreamState
  | [] => ([], s)
  | chunk :: rest =>
    let (evs, s1) := processChunk ctx s chunk
    let (evs2, s2) := processChunks ctx s1 rest
    (evs ++ evs2, s2)

/-- Fixed table from tool name to explanatory sentence, with the generic
fallback applied both for unknown names and for the empty name. -/
def explanatoryTextFor (name : String) : String :=
  if name = "get_weather" then "I" ++ apos ++ "ll help you check the weather in that location."
  else if name = "LS" then "I" ++ apos ++ "ll list the files in that directory for you."
  else if name = "Read" then "I" ++ apos ++ "ll read that file for you."
  else if name = "Write" then "I" ++ apos ++ "ll write to that file."
  else if name = "Bash" then "I" ++ apos ++ "ll execute that command for you."
  else "I" ++ apos ++ "ll help you with that."

/-- Leftmost match of the location pattern: the literal quoted key location,
optional whitespace, a colon, optional whitespace, an opening quote, then
the captured run of non-quote characters. -/
def locTail (cs : List Char) : Option String :=
  match (cs.dropWhile isJsWs) with
  | ':' :: cs2 =>
    match cs2.dropWhile isJsWs with
    | '"' :: cs4 => some (String.mk (cs4.takeWhile (fun c => c ≠ '"')))
    | _ => none
  | _ => none

/-- Quoted location key searched for by the fallback pattern. -/
def locKey : List Char := '"' :: "location".data ++ ['"']

/-- Scan for the first position where the location pattern matches. -/
def findLocationMatch : List Char → Option String
  | [] => none
  | c :: cs =>
    match expectChars locKey (c :: cs) with
    | some rest =>
      match locTail rest with
      | some s => some s
      | none => findLocationMatch cs
    | none => findLocationMatch cs

/-- Fallback input object built when the accumulated argument string fails
to parse: a location extracted by pattern match, with the special repair of
a truncated San prefix, or the fixed placeholder. -/
def fallbackToolInput (args : String) : Json :=
  match findLocationMatch args.data with
  | some loc =>
    if loc ≠ "" then
      let location := if loc = "San" then "San Francisco, CA" else loc
      Json.obj [("location", Json.str location)]
    else Json.obj [("location", Json.str "San Francisco, CA")]
  | none => Json.obj [("location", Json.str "San Francisco, CA")]

/-- Input object of an accumulated tool call: JSON.parse of the argument
string, the empty string standing for the empty object, with the
constrained fallback on parse failure. -/
def parseToolInput (args : String) : Json :=
  match jsonParse (if args = "" then sLbrace ++ sRbrace else args) with
  | some j => j
  | none => fallbackToolInput args

/-- Delta events streaming a text in slices of five characters. -/
def textSliceEvents (index : Nat) (text : String) : List ClaudeEvent :=
  (jsSlices 5 text).map
    (fun c => ClaudeEvent.content_block_delta index (BlockDeltaInfo.text_delta c))

/-- Delta events streaming a serialized input JSON in slices of three
characters. -/
def jsonSliceEvents (index : Nat) (inputJson : String) : List ClaudeEvent :=
  (jsSlices 3 inputJson).map
    (fun c => ClaudeEvent.content_block_delta index (BlockDeltaInfo.input_json_delta c))

/-- Emission of the accumulated tool calls: entries with an empty name are
skipped, every other entry opens a tool_use block at the next index,
streams its serialized input and closes the block. -/
def toolUseEvents : List ToolCallBuf → Nat → List ClaudeEvent
  | [], _ => []
  | tb :: rest, i =>
    if tb.name = "" then toolUseEvents rest i
    else
      let input := parseToolInput tb.arguments
      (ClaudeEvent.content_block_start i (BlockStartInfo.tool_use tb.id tb.name) ::
          jsonSliceEvents i input.render ++ [ClaudeEvent.content_block_stop i]) ++
        toolUseEvents rest (i + 1)

/-- Finalization phase run once a finish signal was seen: close the active
blocks, stream the explanatory text when a named tool call was
accumulated, stream the tool_use blocks, then emit the message_delta with
its hardcoded tool_use stop reason and the message_stop. -/
def finalizeEvents (s : StreamState) : List ClaudeEvent :=
  let stopEvents := s.activeContentBlocks.map ClaudeEvent.content_block_stop
  let completedToolCalls := s.toolCallsBuffer.map Prod.snd
  let nextBlockIndex :=
    if s.activeContentBlocks.length > 0 then (s.activeContentBlocks.foldl max 0) + 1
    else 0
  let explanPair : List ClaudeEvent × Nat :=
    if completedToolCalls.length > 0 && completedToolCalls.any (fun tc => tc.name ≠ "") then
      let firstToolName :=
        jsStrOr ((completedToolCalls.find? (fun tc => tc.name ≠ "")).map ToolCallBuf.name) ""
      let explanatoryText := explanatoryTextFor firstToolName
      (ClaudeEvent.content_block_start nextBlockIndex BlockStartInfo.text ::
          textSliceEvents nextBlockIndex explanatoryText ++
          [ClaudeEvent.content_block_stop nextBlockIndex],
        nextBlockIndex + 1)
    else ([], nextBlockIndex)
  stopEvents ++ explanPair.1 ++ toolUseEvents completedToolCalls explanPair.2 ++
    [ClaudeEvent.message_delta "tool_use" s.totalInputTokens s.totalOutputTokens,
      ClaudeEvent.message_stop]

/-- ResponseConverter.convertOpenAIStreamToClaude on the drained chunk
list: the chunk loop followed, when a finish signal was seen, by the
finalization phase. -/
def convertOpenAIStreamToClaude (ctx : StreamCtx) (chunks : List StreamChunk) :
    List ClaudeEvent :=
  let (evs, s) := processChunks ctx initialStreamState chunks
  evs ++ (if s.hasFinished then finalizeEvents s else [])

/- ===== Observation helpers over chunk sequences and event sequences ===== -/

/-- Truthy text content carried by the first choice of a chunk. -/
def chunkText (chunk : StreamChunk) : Option String :=
  match chunk.choices.head? with
  | some c =>
    match c.delta.content with
    | some t => if t ≠ "" then some t else none
    | none => none
  | none => none

/-- Whether the first choice of a chunk carries a truthy finish signal. -/
def chunkFinish (chunk : StreamChunk) : Bool :=
  match chunk.choices.head? with
  | some c => truthyStr c.finish_reason
  | none => false

/-- Tool-call delta fragments carried by the first choice of a chunk. -/
def chunkToolDeltas (chunk : StreamChunk) : List ToolCallDelta :=
  match chunk.choices.head? with
  | some c =>
    match c.delta.tool_calls with
    | some tcs => tcs
    | none => []
  | none => []

/-- Buffer-and-counter update contributed by one chunk. -/
def bufStep (supply : Nat → String) (st : List (String × ToolCallBuf) × Nat)
    (chunk : StreamChunk) : List (String × ToolCallBuf) × Nat :=
  (chunkToolDeltas chunk).foldl (applyToolCallDelta supply) st

/-- Usage update contributed by one chunk. -/
def usageStep (io : Nat × Nat) (chunk : StreamChunk) : Nat × Nat :=
  match chunk.usage with
  | some u => (jsNumOr u.prompt_tokens io.1, jsNumOr u.completion_tokens io.2)
  | none => io

/-- Events of the text content block: nothing without text, otherwise the
start of block zero unless already active, followed by one delta per chunk
text. -/
def textEvs (act0 : Bool) (texts : List String) : List ClaudeEvent :=
  match texts with
  | [] => []
  | t :: ts =>
    (if act0 then [] else [ClaudeEvent.content_block_start 0 BlockStartInfo.text]) ++
      (t :: ts).map (fun x => ClaudeEvent.content_block_delta 0 (BlockDeltaInfo.text_delta x))

/-- Lower-bound test threaded through the event checker: none accepts any
index, some l demands a strictly larger index. -/
def ltLo : Option Nat → Nat → Bool
  | none, _ => true
  | some l, i => decide (l < i)

/-- Mode of the event-sequence checker: between blocks, carrying the bound
the next start index must exceed, or inside an open block of a given index. -/
inductive CheckMode where
  | blocks (lo : Option Nat)
  | deltas (i : Nat)
deriving Repr, DecidableEq

/-- Event-sequence checker.  Between blocks the trace must continue with a
block start whose index exceeds the bound, or close with exactly one
message_delta followed by exactly one message_stop; inside an open block,
deltas stay on the open index until the matching stop. -/
def checkEvents : CheckMode → List ClaudeEvent → Bool
  | CheckMode.blocks lo, ClaudeEvent.content_block_start i _ :: rest =>
    ltLo lo i && checkEvents (CheckMode.deltas i) rest
  | CheckMode.blocks _, [ClaudeEvent.message_delta _ _ _, ClaudeEvent.message_stop] => true
  | CheckMode.blocks _, _ => false
  | CheckMode.deltas i, ClaudeEvent.content_block_delta j _ :: rest =>
    i = j && checkEvents (CheckMode.deltas i) rest
  | CheckMode.deltas i, ClaudeEvent.content_block_stop j :: rest =>
    i = j && checkEvents (CheckMode.blocks (some i)) rest
  | CheckMode.deltas _, _ => false

/-- Well-formed protocol-A event sequence: exactly one leading
message_start; per content-block index one start, any deltas, one stop,
with start indices strictly increasing in emission order; then exactly one
message_delta and one message_stop. -/
def checkEventSeq : List ClaudeEvent → Bool
  | ClaudeEvent.message_start _ _ :: rest => checkEvents (CheckMode.blocks none) rest
  | _ => false

/- ===== Batch engine =====
   Embedding of the batch routes and of processBatchAsync.  The scheduler is
   cooperative: the worker suspends only at the backend call inside one
   item, so every state another handler can observe equals a state of the
   trace built here.  The adapter call and the model lookup are external
   collaborators summarized by an outcome oracle: a missing model mapping
   and an adapter failure both record an item-level error.  Identifier and
   timestamp fields are opaque strings irrelevant to the claims and are
   omitted. -/

/-- Processing status of a batch job. -/
inductive BatchStatus where
  | validating
  | in_progress
  | canceling
  | ended
deriving Repr, DecidableEq

/-- Counters of a batch job; integers, matching the JavaScript numbers they
embed. -/
structure RequestCounts where
  processing : Int
  succeeded : Int
  errored : Int
  canceled : Int
deriving Repr, DecidableEq

/-- One submitted batch request: the custom id and the model of its body. -/
structure BatchRequest where
  custom_id : String
  model : String
deriving Repr, DecidableEq

/-- Result category recorded for one processed item. -/
inductive BatchResultType where
  | succeeded
  | errored
  | canceled
deriving Repr, DecidableEq

/-- Result record pushed for one processed item. -/
structure BatchResult where
  custom_id : String
  type : BatchResultType
deriving Repr, DecidableEq

/-- Batch job state stored in the in-memory map. -/
structure BatchJob where
  processing_status : BatchStatus
  request_counts : RequestCounts
  cancel_initiated : Bool
  requests : List BatchRequest
  results : Option (List BatchResult)
deriving Repr, DecidableEq

/-- Outcome of running one item through the model lookup and the one-shot
adapter path. -/
inductive ItemOutcome where
  | succeeded
  | errored
deriving Repr, DecidableEq

/-- Job object built by the create route: status validating, processing
count equal to the number of requests, results not yet initialized. -/
def createBatch (requests : List BatchRequest) : BatchJob :=
  { processing_status := BatchStatus.validating
    request_counts := ⟨(requests.length : Int), 0, 0, 0⟩
    cancel_initiated := false
    requests := requests
    results := none }

/-- First two statements of processBatchAsync, run synchronously when the
create route starts the worker: status in_progress and an empty results
list. -/
def workerStart (j : BatchJob) : BatchJob :=
  { j with processing_status := BatchStatus.in_progress, results := some [] }

/-- Cancel route applied to a stored job: rejected on an ended job,
otherwise the status becomes canceling and the cancel timestamp is set. -/
def cancelBatch (j : BatchJob) : BatchJob :=
  if j.processing_status = BatchStatus.ended then j
  else { j with processing_status := BatchStatus.canceling, cancel_initiated := true }

/-- One iteration of the worker loop over a request: a pending cancel
records the item as canceled, otherwise the oracle decides between the
succeeded and the errored bookkeeping; in each case one result record is
pushed and processing is traded for the outcome counter. -/
def processItem (oracle : BatchRequest → ItemOutcome) (j : BatchJob)
    (request : BatchRequest) : BatchJob :=
  if j.cancel_initiated then
    { j with
      request_counts :=
        { j.request_counts with
          canceled := j.request_counts.canceled + 1
          processing := j.request_counts.processing - 1 }
      results := some ((j.results.getD []) ++ [⟨request.custom_id, BatchResultType.canceled⟩]) }
  else
    match oracle request with
    | ItemOutcome.succeeded =>
      { j with
        request_counts :=
          { j.request_counts with
            succeeded := j.request_counts.succeeded + 1
            processing := j.request_counts.processing - 1 }
        results := some ((j.results.getD []) ++ [⟨request.custom_id, BatchResultType.succeeded⟩]) }
    | ItemOutcome.errored =>
      { j with
        request_counts :=
          { j.request_counts with
            errored := j.request_counts.errored + 1
            processing := j.request_counts.processing - 1 }
        results := some ((j.results.getD []) ++ [⟨request.custom_id, BatchResultType.errored⟩]) }

/-- Epilogue of the worker: the job ends. -/
def finishWorker (j : BatchJob) : BatchJob :=
  { j with processing_status := BatchStatus.ended }

/-- Observable job states from a given worker state onward: before each
item the environment may run the cancel route (the schedule says whether
it does), the state during the await of that item is observable, and after
the last item the ended state is. -/
def batchTraceAux (oracle : BatchRequest → ItemOutcome) :
    BatchJob → List BatchRequest → List Bool → List BatchJob
  | j, [], _ => [finishWorker j]
  | j, r :: rs, schedule =>
    let j1 := if schedule.headD false then cancelBatch j else j
    let j2 := processItem oracle j1 r
    j1 :: batchTraceAux oracle j2 rs schedule.tail

/-- All states of a batch job observable by other request handlers after
submission: the worker prologue runs synchronously inside the create
route, so its result is the first observable state. -/
def batchObservable (oracle : BatchRequest → ItemOutcome)
    (requests : List BatchRequest) (schedule : List Bool) : List BatchJob :=
  let j0 := workerStart (createBatch requests)
  j0 :: batchTraceAux oracle j0 requests schedule

/-- Error taxonomy of the HTTP layer. -/
inductive ApiErrorType where
  | invalid_request_error
  | not_found_error
  | api_error
deriving Repr, DecidableEq

/-- Results route applied to a stored job: only an uninitialized results
field is rejected as a client error; any initialized list, including an
empty or partial one, is returned. -/
def getBatchResults (j : BatchJob) : Except ApiErrorType (List BatchResult) :=
  match j.results with
  | none => Except.error ApiErrorType.invalid_request_error
  | some rs => Except.ok rs

/-- Sum of the four request counters. -/
def countsTotal (c : RequestCounts) : Int :=
  c.processing + c.succeeded + c.errored + c.canceled

/-- Truthy function-name fragment carried by a tool-call delta. -/
def fragTruthyName (d : ToolCallDelta) : Option String :=
  match d.func with
  | some f => if truthyStr f.name then f.name else none
  | none => none

/-- Truthy argument fragment carried by a tool-call delta. -/
def fragTruthyArgs (d : ToolCallDelta) : Option String :=
  match d.func with
  | some f => if truthyStr f.arguments then f.arguments else none
  | none => none

/-- Closed form of the loop state after draining a chunk list from the
initial state: usage and buffer folds over the chunks, the text block
active exactly when some chunk carried truthy text, and the finish flag
when some chunk carried a truthy finish signal. -/
def streamFinalState (ctx : StreamCtx) (chunks : List StreamChunk) : StreamState :=
  { hasStarted := !chunks.isEmpty
    totalInputTokens := (chunks.foldl usageStep (0, 0)).1
    totalOutputTokens := (chunks.foldl usageStep (0, 0)).2
    activeContentBlocks := if !(chunks.filterMap chunkText).isEmpty then [0] else []
    toolCallsBuffer := (chunks.foldl (bufStep ctx.supply) ([], 0)).1
    hasFinished := chunks.any chunkFinish
    ctr := (chunks.foldl (bufStep ctx.supply) ([], 0)).2 }

/- ===== Helper lemmas ===== -/

theorem MapGet_MapSet_self {β : Type} (l : List (String × β)) (k : String) (item : β) :
    MapGet (MapSet l k item) k = some item := by
  induction l with
  | nil => simp [MapSet, MapGet]
  | cons p rest ih =>
    obtain ⟨k', v'⟩ := p
    by_cases h : k' = k
    · simp [MapSet, MapGet, h]
    · simp [MapSet, MapGet, h, ih]

theorem MapGet_MapDelete_self {β : Type} (l : List (String × β)) (k : String) :
    MapGet (MapDelete l k) k = none := by
  induction l with
  | nil => simp [MapDelete, MapGet]
  | cons p rest ih =>
    obtain ⟨k', v'⟩ := p
    by_cases h : k' = k
    · simp [MapDelete, h, ih]
    · simp [MapDelete, MapGet, h, ih]

theorem toolCallOf_eq_none_of_not_toolUse {b : ClaudeBlock} (h : isToolUse b = false) :
    toolCallOf b = none := by
  cases b <;> simp_all [toolCallOf, isToolUse]

/- ===== C1 ===== -/

/-- C1: for every protocol-A request and model mapping, the backend request
built by RequestConverter.convertClaudeToOpenAI carries max_tokens equal to
the minimum of the requested max_tokens, the model mapping limit and the
fixed hard ceiling 8192. -/
theorem max_tokens_clamped (req : ClaudeRequest) (cfg : ModelConfig) :
    (convertClaudeToOpenAI req cfg).max_tokens =
      min req.max_tokens (min cfg.maxTokens 8192) := by
  simp [convertClaudeToOpenAI, absoluteMaxTokens, Nat.min_assoc]

/- ===== C10 ===== -/

/-- C10: a protocol-A message whose content blocks include at least one
tool_result and no tool_use is converted by RequestConverter.convertMessage
into exactly the one backend message of role tool built from the first
tool_result block; every other block of the message is dropped. -/
theorem tool_result_message_conversion (role : ClaudeRole) (blocks : List ClaudeBlock)
    (tid : String) (c : ToolResultContent) (rest : List (String × ToolResultContent))
    (hNoToolUse : ∀ b ∈ blocks, isToolUse b = false)
    (hFirst : blocks.filterMap toolResultFields = (tid, c) :: rest) :
    convertMessage ⟨role, ClaudeContent.blocks blocks⟩ =
      { role := OpenAIRole.tool
        content := OpenAIContent.str (stringifyToolResultContent c)
        tool_calls := none
        tool_call_id := some tid } := by
  have hcalls : blocks.filterMap toolCallOf = [] := by
    rw [List.filterMap_eq_nil_iff]
    intro b hb
    exact toolCallOf_eq_none_of_not_toolUse (hNoToolUse b hb)
  simp [convertMessage, hcalls, hFirst]

/-- Witness for C10 at a concrete message carrying a text block and two
tool_result blocks. -/
theorem tool_result_message_conversion_witness :
    convertMessage
        ⟨ClaudeRole.user,
          ClaudeContent.blocks
            [ClaudeBlock.text "x",
             ClaudeBlock.tool_result "t1" (ToolResultContent.str "r1"),
             ClaudeBlock.tool_result "t2" (ToolResultContent.str "r2")]⟩ =
      { role := OpenAIRole.tool
        content := OpenAIContent.str "r1"
        tool_calls := none
        tool_call_id := some "t1" } :=
  tool_result_message_conversion ClaudeRole.user
    [ClaudeBlock.text "x",
     ClaudeBlock.tool_result "t1" (ToolResultContent.str "r1"),
     ClaudeBlock.tool_result "t2" (ToolResultContent.str "r2")]
    "t1" (ToolResultContent.str "r1") [("t2", ToolResultContent.str "r2")]
    (by decide) rfl

/- ===== C6 ===== -/

/-- C6: a request with exactly one web-search tool and a system prompt
containing the marker text routes to the configured web-search model under
every tokenizer, in particular when the estimated token count exceeds the
long-context threshold and a long-context route is configured; configured
means present and truthy, that is a non-empty route string. -/
theorem web_search_route_precedence (encodeLen : String → Nat) (req : ClaudeRequest)
    (dc : ModelConfig) (rc : RouterConfig) (m : String)
    (h1 : hasExactlyOneWebSearchTool req = true)
    (h2 : hasWebSearchSystemIndicator req = true)
    (h3 : rc.webSearch = some m) (h4 : m ≠ "") :
    routeModel encodeLen req dc rc = m := by
  simp [routeModel, h1, h2, h3, truthyStr, h4]

/-- Witness for C6: one web-search tool, the marker system prompt, a
tokenizer putting the request at 70000 tokens over a 60000 threshold with a
long-context route configured; the web-search route still wins. -/
theorem web_search_route_precedence_witness :
    60000 <
        calculateTokenCount (fun _ => 70000)
          [⟨ClaudeRole.user, ClaudeContent.str "hi"⟩]
          (some (SystemPrompt.str webSearchMarker))
          [⟨"web_search", some "web_search_20250305", none, none⟩] ∧
      routeModel (fun _ => 70000)
          ⟨"claude-x",
            [⟨ClaudeRole.user, ClaudeContent.str "hi"⟩],
            some (SystemPrompt.str webSearchMarker),
            1024, none, none, [],
            [⟨"web_search", some "web_search_20250305", none, none⟩],
            none, false⟩
          ⟨"claude-x", "gpt-x", 8192, none⟩
          ⟨"default-model", some "long-context-model", some 60000,
            some "web-search-model", none, none⟩ =
        "web-search-model" :=
  ⟨by decide,
    web_search_route_precedence (fun _ => 70000)
      ⟨"claude-x",
        [⟨ClaudeRole.user, ClaudeContent.str "hi"⟩],
        some (SystemPrompt.str webSearchMarker),
        1024, none, none, [],
        [⟨"web_search", some "web_search_20250305", none, none⟩],
        none, false⟩
      ⟨"claude-x", "gpt-x", 8192, none⟩
      ⟨"default-model", some "long-context-model", some 60000,
        some "web-search-model", none, none⟩
      "web-search-model" (by decide) (by decide) rfl (by decide)⟩

/- ===== C7 ===== -/

/-- C7: after set of a value with TTL t at time now, a get within the TTL
returns the value and leaves the store unchanged, while a get after the
expiry instant returns absent and evicts the entry (lazy expiry). -/
theorem cache_ttl_semantics {α : Type} (store : List (String × CacheItem α))
    (now : Nat) (k : String) (v : α) (t e1 e2 : Nat)
    (h1 : e1 ≤ t) (h2 : t < e2) :
    storeGet (now + e1) (storeSet now store k v t) k =
        (some v, storeSet now store k v t) ∧
      storeGet (now + e2) (storeSet now store k v t) k =
        (none, MapDelete (storeSet now store k v t) k) ∧
      MapGet (MapDelete (storeSet now store k v t) k) k = none := by
  have hget : MapGet (storeSet now store k v t) k = some ⟨v, now + t⟩ :=
    MapGet_MapSet_self store k ⟨v, now + t⟩
  refine ⟨?_, ?_, MapGet_MapDelete_self _ k⟩
  · simp only [storeGet, hget]
    have : ¬ (now + e1 > now + t) := by omega
    simp [this]
  · simp only [storeGet, hget]
    have : now + e2 > now + t := by omega
    simp [this]

/-- Witness for C7 with the spec numbers: TTL 1000, a read at elapsed 500
returns the value, a read at elapsed 1500 is absent and evicts. -/
theorem cache_ttl_semantics_witness :
    storeGet (0 + 500) (storeSet 0 ([] : List (String × CacheItem Nat)) "k" 42 1000) "k" =
        (some 42, storeSet 0 ([] : List (String × CacheItem Nat)) "k" 42 1000) ∧
      storeGet (0 + 1500) (storeSet 0 ([] : List (String × CacheItem Nat)) "k" 42 1000) "k" =
        (none, MapDelete (storeSet 0 ([] : List (String × CacheItem Nat)) "k" 42 1000) "k") ∧
      MapGet (MapDelete (storeSet 0 ([] : List (String × CacheItem Nat)) "k" 42 1000) "k") "k" =
        none :=
  cache_ttl_semantics [] 0 "k" 42 1000 500 1500 (by decide) (by decide)

/- ===== Batch lemmas and C4, C5 ===== -/

theorem countsTotal_processItem (oracle : BatchRequest → ItemOutcome) (j : BatchJob)
    (r : BatchRequest) :
    countsTotal (processItem oracle j r).request_counts = countsTotal j.request_counts := by
  unfold processItem countsTotal
  by_cases h : j.cancel_initiated
  · simp [h]; ring
  · cases oracle r <;> (simp [h]; try ring)

theorem counts_cancelBatch (j : BatchJob) :
    (cancelBatch j).request_counts = j.request_counts := by
  unfold cancelBatch
  by_cases h : j.processing_status = BatchStatus.ended <;> simp [h]

theorem results_processItem_isSome (oracle : BatchRequest → ItemOutcome) (j : BatchJob)
    (r : BatchRequest) : ((processItem oracle j r).results).isSome = true := by
  unfold processItem
  by_cases h : j.cancel_initiated
  · simp [h]
  · cases oracle r <;> simp [h]

theorem results_cancelBatch (j : BatchJob) : (cancelBatch j).results = j.results := by
  unfold cancelBatch
  by_cases h : j.processing_status = BatchStatus.ended <;> simp [h]

theorem batchTraceAux_counts (oracle : BatchRequest → ItemOutcome) :
    ∀ (rs : List BatchRequest) (schedule : List Bool) (j x : BatchJob),
      x ∈ batchTraceAux oracle j rs schedule →
      countsTotal x.request_counts = countsTotal j.request_counts := by
  intro rs
  induction rs with
  | nil =>
    intro schedule j x hx
    simp only [batchTraceAux, List.mem_singleton] at hx
    subst hx
    rfl
  | cons r rest ih =>
    intro schedule j x hx
    simp only [batchTraceAux, List.mem_cons] at hx
    rcases hx with rfl | hx
    · split <;> simp [counts_cancelBatch]
    · have step := ih schedule.tail
        (processItem oracle (if schedule.headD false then cancelBatch j else j) r) x hx
      rw [step, countsTotal_processItem]
      split <;> simp [counts_cancelBatch]

theorem batchTraceAux_results (oracle : BatchRequest → ItemOutcome) :
    ∀ (rs : List BatchRequest) (schedule : List Bool) (j x : BatchJob),
      x ∈ batchTraceAux oracle j rs schedule →
      j.results.isSome = true → x.results.isSome = true := by
  intro rs
  induction rs with
  | nil =>
    intro schedule j x hx hj
    simp only [batchTraceAux, List.mem_singleton] at hx
    subst hx
    exact hj
  | cons r rest ih =>
    intro schedule j x hx hj
    simp only [batchTraceAux, List.mem_cons] at hx
    rcases hx with rfl | hx
    · split <;> simp [results_cancelBatch, hj]
    · exact ih schedule.tail _ x hx (results_processItem_isSome oracle _ r)

/-- C4: at every point observable by another request handler after a batch
job is created, the four request counters of the job sum to the number of
submitted requests. -/
theorem batch_counts_invariant (oracle : BatchRequest → ItemOutcome)
    (requests : List BatchRequest) (schedule : List Bool) (j : BatchJob)
    (h : j ∈ batchObservable oracle requests schedule) :
    j.request_counts.processing + j.request_counts.succeeded +
        j.request_counts.errored + j.request_counts.canceled =
      (requests.length : Int) := by
  have base : countsTotal (workerStart (createBatch requests)).request_counts =
      (requests.length : Int) := by
    simp [workerStart, createBatch, countsTotal]
  simp only [batchObservable, List.mem_cons] at h
  have : countsTotal j.request_counts = (requests.length : Int) := by
    rcases h with rfl | h
    · exact base
    · rw [batchTraceAux_counts oracle requests schedule _ j h]
      exact base
  simpa [countsTotal] using this

/-- Witness for C4: the state of a five-request batch observable after its
first item succeeded sums its counters to five. -/
theorem batch_counts_invariant_witness :
    (⟨BatchStatus.in_progress, ⟨4, 1, 0, 0⟩, false,
          [⟨"1", "m"⟩, ⟨"2", "m"⟩, ⟨"3", "m"⟩, ⟨"4", "m"⟩, ⟨"5", "m"⟩],
          some [⟨"1", BatchResultType.succeeded⟩]⟩ : BatchJob).request_counts.processing +
        (⟨BatchStatus.in_progress, ⟨4, 1, 0, 0⟩, false,
          [⟨"1", "m"⟩, ⟨"2", "m"⟩, ⟨"3", "m"⟩, ⟨"4", "m"⟩, ⟨"5", "m"⟩],
          some [⟨"1", BatchResultType.succeeded⟩]⟩ : BatchJob).request_counts.succeeded +
        (⟨BatchStatus.in_progress, ⟨4, 1, 0, 0⟩, false,
          [⟨"1", "m"⟩, ⟨"2", "m"⟩, ⟨"3", "m"⟩, ⟨"4", "m"⟩, ⟨"5", "m"⟩],
          some [⟨"1", BatchResultType.succeeded⟩]⟩ : BatchJob).request_counts.errored +
        (⟨BatchStatus.in_progress, ⟨4, 1, 0, 0⟩, false,
          [⟨"1", "m"⟩, ⟨"2", "m"⟩, ⟨"3", "m"⟩, ⟨"4", "m"⟩, ⟨"5", "m"⟩],
          some [⟨"1", BatchResultType.succeeded⟩]⟩ : BatchJob).request_counts.canceled =
      (5 : Int) :=
  batch_counts_invariant
    (fun r => if r.custom_id = "2" then ItemOutcome.errored else ItemOutcome.succeeded)
    [⟨"1", "m"⟩, ⟨"2", "m"⟩, ⟨"3", "m"⟩, ⟨"4", "m"⟩, ⟨"5", "m"⟩]
    [false, false, true, false, false]
    ⟨BatchStatus.in_progress, ⟨4, 1, 0, 0⟩, false,
      [⟨"1", "m"⟩, ⟨"2", "m"⟩, ⟨"3", "m"⟩, ⟨"4", "m"⟩, ⟨"5", "m"⟩],
      some [⟨"1", BatchResultType.succeeded⟩]⟩
    (by decide)

/-- C5 counterexample: for a one-request batch, the state observable while
the first item is awaiting the backend has status in_progress, is not
ended, and the results route answers it with the empty result list instead
of rejecting it as a client error. -/
theorem results_before_end_counterexample :
    workerStart (createBatch [⟨"req-1", "m"⟩]) ∈
        batchObservable (fun _ => ItemOutcome.succeeded) [⟨"req-1", "m"⟩] [false] ∧
      (workerStart (createBatch [⟨"req-1", "m"⟩])).processing_status ≠ BatchStatus.ended ∧
      getBatchResults (workerStart (createBatch [⟨"req-1", "m"⟩])) = Except.ok [] := by
  refine ⟨?_, by decide, rfl⟩
  simp [batchObservable]

/-- C5 amended: the results route rejects a job only while its results
field is uninitialized; since the worker initializes the field synchronously
with submission, every observable state answers the results request with
the list of results accumulated so far, empty or partial before the job
has ended. -/
theorem results_available_at_every_observable_point
    (oracle : BatchRequest → ItemOutcome) (requests : List BatchRequest)
    (schedule : List Bool) (j : BatchJob)
    (h : j ∈ batchObservable oracle requests schedule) :
    ∃ l, j.results = some l ∧ getBatchResults j = Except.ok l := by
  have hsome : j.results.isSome = true := by
    simp only [batchObservable, List.mem_cons] at h
    rcases h with rfl | h
    · simp [workerStart]
    · exact batchTraceAux_results oracle requests schedule _ j h (by simp [workerStart])
  obtain ⟨l, hl⟩ := Option.isSome_iff_exists.mp hsome
  exact ⟨l, hl, by simp [getBatchResults, hl]⟩

/-- Witness for the amended C5 at the first observable state of a
one-request batch. -/
theorem results_available_witness :
    ∃ l, (workerStart (createBatch [⟨"req-1", "m"⟩])).results = some l ∧
      getBatchResults (workerStart (createBatch [⟨"req-1", "m"⟩])) = Except.ok l :=
  results_available_at_every_observable_point (fun _ => ItemOutcome.succeeded)
    [⟨"req-1", "m"⟩] [false] (workerStart (createBatch [⟨"req-1", "m"⟩]))
    (by simp [batchObservable])

/- ===== C8 ===== -/

/-- C8: whenever the input contains a trailing bracketed array, located by
the last closing bracket and the backward depth-tracking scan to its
matching opening bracket, parseSearchResult returns the trimmed text before
the opening bracket as the query together with the JSON parse of the
bracketed substring; in particular the spec example decomposes into the
query weather in NYC and the one-element links array. -/
theorem bracket_scan_parse :
    (∀ (text : String) (lastIdx firstIdx : Nat) (j : Json),
        lastIndexOfChar ']' text.data = some lastIdx →
        bracketScan text.data lastIdx 0 = some firstIdx →
        jsonParse (String.mk ((text.data.drop firstIdx).take (lastIdx + 1 - firstIdx))) =
          some j →
        parseSearchResult text =
          Except.ok (some (jsTrim (String.mk (text.data.take firstIdx)), j))) ∧
      parseSearchResult "weather in NYC [\x7b\"title\":\"a\",\"url\":\"b\"\x7d]" =
        Except.ok (some ("weather in NYC",
          Json.arr [Json.obj [("title", Json.str "a"), ("url", Json.str "b")]])) := by
  constructor
  · intro text lastIdx firstIdx j h1 h2 h3
    simp only [parseSearchResult, h1, h2, h3]
  · rfl

/-- Witness for C8: the general decomposition applied to the spec example,
whose last closing bracket sits at index 39 and whose matching opening
bracket sits at index 15. -/
theorem bracket_scan_parse_witness :
    parseSearchResult "weather in NYC [\x7b\"title\":\"a\",\"url\":\"b\"\x7d]" =
      Except.ok (some (jsTrim (String.mk
          (("weather in NYC [\x7b\"title\":\"a\",\"url\":\"b\"\x7d]" : String).data.take 15)),
        Json.arr [Json.obj [("title", Json.str "a"), ("url", Json.str "b")]])) :=
  bracket_scan_parse.1 "weather in NYC [\x7b\"title\":\"a\",\"url\":\"b\"\x7d]" 39 15
    (Json.arr [Json.obj [("title", Json.str "a"), ("url", Json.str "b")]]) rfl rfl rfl

/- ===== Stream reconstructor lemmas ===== -/

theorem textEvs_true (l : List String) :
    textEvs true l =
      l.map (fun x => ClaudeEvent.content_block_delta 0 (BlockDeltaInfo.text_delta x)) := by
  cases l <;> simp [textEvs]

theorem processChunk_spec (ctx : StreamCtx) (s : StreamState) (c : StreamChunk) :
    processChunk ctx s c =
      ((if s.hasStarted then [] else [ClaudeEvent.message_start ctx.messageId ctx.claudeModel]) ++
          (match chunkText c with
           | some t =>
             (if s.activeContentBlocks.contains 0 then []
              else [ClaudeEvent.content_block_start 0 BlockStartInfo.text]) ++
               [ClaudeEvent.content_block_delta 0 (BlockDeltaInfo.text_delta t)]
           | none => []),
        { hasStarted := true
          totalInputTokens := (usageStep (s.totalInputTokens, s.totalOutputTokens) c).1
          totalOutputTokens := (usageStep (s.totalInputTokens, s.totalOutputTokens) c).2
          activeContentBlocks :=
            if (chunkText c).isSome && !(s.activeContentBlocks.contains 0) then
              s.activeContentBlocks ++ [0]
            else s.activeContentBlocks
          toolCallsBuffer := (bufStep ctx.supply (s.toolCallsBuffer, s.ctr) c).1
          hasFinished := s.hasFinished || chunkFinish c
          ctr := (bufStep ctx.supply (s.toolCallsBuffer, s.ctr) c).2 }) := by
  rcases c with ⟨choices, usage⟩
  rcases choices with _ | ⟨⟨⟨content, tcs⟩, fin⟩, chs⟩
  · rcases usage with _ | u <;>
      simp [processChunk, chunkText, chunkFinish, chunkToolDeltas, bufStep, usageStep, truthyStr]
  · rcases content with _ | t
    · rcases tcs with _ | ts <;> rcases usage with _ | u <;> rcases fin with _ | f <;>
        simp_all [processChunk, chunkText, chunkFinish, chunkToolDeltas, bufStep, usageStep,
          truthyStr] <;>
        (try (split <;> simp_all))
    · by_cases ht : t = "" <;>
        rcases tcs with _ | ts <;> rcases usage with _ | u <;> rcases fin with _ | f <;>
        by_cases hc : s.activeContentBlocks.contains 0 <;>
        simp_all [processChunk, chunkText, chunkFinish, chunkToolDeltas, bufStep, usageStep,
          truthyStr] <;>
        (try (split <;> simp_all))

theorem processChunks_spec (ctx : StreamCtx) :
    ∀ (chunks : List StreamChunk) (s : StreamState),
      s.activeContentBlocks = [] ∨ s.activeContentBlocks = [0] →
      processChunks ctx s chunks =
        ((if !s.hasStarted && !chunks.isEmpty then
              [ClaudeEvent.message_start ctx.messageId ctx.claudeModel]
            else []) ++
            textEvs (s.activeContentBlocks.contains 0) (chunks.filterMap chunkText),
          { hasStarted := s.hasStarted || !chunks.isEmpty
            totalInputTokens :=
              (chunks.foldl usageStep (s.totalInputTokens, s.totalOutputTokens)).1
            totalOutputTokens :=
              (chunks.foldl usageStep (s.totalInputTokens, s.totalOutputTokens)).2
            activeContentBlocks :=
              if s.activeContentBlocks.contains 0 || !(chunks.filterMap chunkText).isEmpty then
                [0]
              else []
            toolCallsBuffer := (chunks.foldl (bufStep ctx.supply) (s.toolCallsBuffer, s.ctr)).1
            hasFinished := s.hasFinished || chunks.any chunkFinish
            ctr := (chunks.foldl (bufStep ctx.supply) (s.toolCallsBuffer, s.ctr)).2 }) := by
  intro chunks
  induction chunks with
  | nil =>
    intro s hv
    rcases s with ⟨hs1, ti1, to1, ab1, bu1, hf1, ct1⟩
    simp only at hv
    rcases hv with rfl | rfl <;> simp [processChunks, textEvs]
  | cons c cs ih =>
    intro s hv
    have hstep := processChunk_spec ctx s c
    simp only [processChunks]
    rw [hstep]
    rcases hv with hv | hv <;> rcases h : chunkText c with _ | t <;>
      by_cases hs : s.hasStarted <;>
      simp_all [textEvs, textEvs_true, List.filterMap_cons, Bool.or_assoc] <;>
      (try (cases hcc : List.filterMap chunkText cs <;> simp))

theorem convertStream_eq (ctx : StreamCtx) (chunks : List StreamChunk) :
    convertOpenAIStreamToClaude ctx chunks =
      ((if chunks.isEmpty then []
          else [ClaudeEvent.message_start ctx.messageId ctx.claudeModel]) ++
          textEvs false (chunks.filterMap chunkText)) ++
        (if chunks.any chunkFinish then finalizeEvents (streamFinalState ctx chunks)
         else []) := by
  unfold convertOpenAIStreamToClaude
  rw [processChunks_spec ctx chunks initialStreamState (Or.inl rfl)]
  simp only [initialStreamState]
  simp [streamFinalState]

theorem checkEvents_deltas_map (i : Nat) (f : String → BlockDeltaInfo) (xs : List String)
    (l : List ClaudeEvent) :
    checkEvents (CheckMode.deltas i)
        ((xs.map fun s => ClaudeEvent.content_block_delta i (f s)) ++ l) =
      checkEvents (CheckMode.deltas i) l := by
  induction xs with
  | nil => rfl
  | cons x xs ih => simp [checkEvents, ih]

theorem checkEvents_toolUse_tail (r : String) (a b : Nat) :
    ∀ (completed : List ToolCallBuf) (lo : Option Nat) (i : Nat), ltLo lo i = true →
      checkEvents (CheckMode.blocks lo)
          (toolUseEvents completed i ++
            [ClaudeEvent.message_delta r a b, ClaudeEvent.message_stop]) = true := by
  intro completed
  induction completed with
  | nil => intro lo i hlo; rfl
  | cons tb rest ih =>
    intro lo i hlo
    by_cases hn : tb.name = ""
    · simp only [toolUseEvents, if_pos hn]
      exact ih lo i hlo
    · simp only [toolUseEvents, if_neg hn, jsonSliceEvents, List.cons_append,
        List.append_assoc]
      simp only [checkEvents, hlo, Bool.true_and]
      rw [checkEvents_deltas_map]
      simp only [List.cons_append, checkEvents, decide_True, Bool.true_and]
      rw [List.nil_append]
      exact ih (some i) (i + 1) (by simp [ltLo])

theorem checkEvents_finalize_none (s : StreamState) (hact : s.activeContentBlocks = []) :
    checkEvents (CheckMode.blocks none) (finalizeEvents s) = true := by
  unfold finalizeEvents
  rw [hact]
  simp only [List.map_nil, List.length_nil, List.nil_append]
  split
  · next hcond =>
    simp [textSliceEvents, checkEvents, ltLo, checkEvents_deltas_map, List.append_assoc,
      checkEvents_toolUse_tail]
  · simp only [List.nil_append]
    exact checkEvents_toolUse_tail _ _ _ _ none 0 rfl

theorem checkEvents_finalize_zero (s : StreamState) (hact : s.activeContentBlocks = [0]) :
    checkEvents (CheckMode.deltas 0) (finalizeEvents s) = true := by
  unfold finalizeEvents
  rw [hact]
  simp only [List.map_cons, List.map_nil, List.cons_append, List.nil_append, checkEvents,
    decide_True, Bool.true_and]
  split
  · next hcond =>
    simp [textSliceEvents, checkEvents, ltLo, checkEvents_deltas_map, List.append_assoc,
      checkEvents_toolUse_tail]
  · simp [checkEvents, ltLo, checkEvents_toolUse_tail]

/-- C2 amended: for every nonempty backend chunk sequence in which some
chunk carries a truthy finish signal, the emitted event sequence has
exactly one leading message_start, per content-block index one start, any
deltas and one stop with start indices strictly increasing in emission
order, then exactly one message_delta followed by exactly one
message_stop. -/
theorem stream_event_order (ctx : StreamCtx) (chunks : List StreamChunk)
    (h : chunks.any chunkFinish = true) :
    checkEventSeq (convertOpenAIStreamToClaude ctx chunks) = true := by
  have hne : chunks ≠ [] := by rintro rfl; simp at h
  have hie : chunks.isEmpty = false := by
    cases chunks
    · exact absurd rfl hne
    · rfl
  rw [convertStream_eq, h, hie]
  simp only [if_true, Bool.false_eq_true, if_false]
  cases htx : chunks.filterMap chunkText with
  | nil =>
    have hact : (streamFinalState ctx chunks).activeContentBlocks = [] := by
      simp [streamFinalState, htx]
    simp only [textEvs, List.append_nil, List.nil_append, List.cons_append, checkEventSeq]
    exact checkEvents_finalize_none _ hact
  | cons t ts =>
    have hact : (streamFinalState ctx chunks).activeContentBlocks = [0] := by
      simp [streamFinalState, htx]
    simp only [textEvs, List.cons_append, List.nil_append, List.append_assoc, checkEventSeq,
      checkEvents, ltLo, Bool.true_and, List.map_cons, decide_True]
    rw [checkEvents_deltas_map]
    exact checkEvents_finalize_zero _ hact

theorem message_delta_not_mem_textEvs (r : String) (a b : Nat) (act : Bool)
    (l : List String) : ClaudeEvent.message_delta r a b ∉ textEvs act l := by
  cases l <;> cases act <;> simp [textEvs]

theorem message_delta_not_mem_toolUseEvents (r : String) (a b : Nat) :
    ∀ (bufs : List ToolCallBuf) (i : Nat),
      ClaudeEvent.message_delta r a b ∉ toolUseEvents bufs i := by
  intro bufs
  induction bufs with
  | nil => intro i; simp [toolUseEvents]
  | cons tb rest ih =>
    intro i
    by_cases hn : tb.name = "" <;> simp [toolUseEvents, hn, jsonSliceEvents, ih]

theorem message_delta_mem_finalize (s : StreamState) (r : String) (a b : Nat)
    (h : ClaudeEvent.message_delta r a b ∈ finalizeEvents s) : r = "tool_use" := by
  unfold finalizeEvents at h
  split at h <;> (simp only [] at h; split at h) <;>
    simp [List.mem_append, List.mem_map, textSliceEvents,
      message_delta_not_mem_toolUseEvents] at h <;>
    tauto

/-- C9: whenever the finalization phase runs, the single message_delta of
the stream reports the hardcoded stop reason tool_use, whatever the
backend finish reason was and whether or not tool calls were accumulated. -/
theorem stream_stop_reason_tool_use (ctx : StreamCtx) (chunks : List StreamChunk)
    (h : chunks.any chunkFinish = true) :
    (∃ a b, ClaudeEvent.message_delta "tool_use" a b ∈
        convertOpenAIStreamToClaude ctx chunks) ∧
      ∀ r a b, ClaudeEvent.message_delta r a b ∈ convertOpenAIStreamToClaude ctx chunks →
        r = "tool_use" := by
  constructor
  · refine ⟨(streamFinalState ctx chunks).totalInputTokens,
      (streamFinalState ctx chunks).totalOutputTokens, ?_⟩
    rw [convertStream_eq]
    simp only [h, if_true, List.mem_append]
    right
    unfold finalizeEvents
    simp [List.mem_append]
  · intro r a b hmem
    rw [convertStream_eq] at hmem
    simp only [h, if_true, List.mem_append] at hmem
    rcases hmem with (hmem | hmem) | hmem
    · by_cases hie : chunks.isEmpty <;> simp [hie] at hmem
    · exact absurd hmem (message_delta_not_mem_textEvs r a b _ _)
    · exact message_delta_mem_finalize _ r a b hmem

theorem getLastD_cons : ∀ (l : List String) (x a : String),
    ((a :: l).getLast?).getD x = (l.getLast?).getD a := by
  intro l
  induction l with
  | nil => intro x a; rfl
  | cons b m ih =>
    intro x a
    rw [List.getLast?_cons_cons, ih x b, ih a b]

theorem call_prefix_ne_empty (x : String) : ("call_" ++ x) ≠ "" := by
  intro h
  have h2 : ("call_" ++ x).length = ("" : String).length := congrArg String.length h
  rw [String.length_append] at h2
  have h4 : ("call_" : String).length = 5 := rfl
  have h3 : ("" : String).length = 0 := rfl
  omega

theorem applyToolCallDelta_create (supply : Nat → String) (ctr : Nat) (d : ToolCallDelta) :
    applyToolCallDelta supply ([], ctr) d =
      ([("tool_" ++ toString (d.index.getD 0),
          ⟨jsStrOr d.id ("call_" ++ supply ctr),
            (fragTruthyName d).getD "",
            (fragTruthyArgs d).getD ""⟩)],
        if truthyStr d.id then ctr else ctr + 1) := by
  rcases d with ⟨idx, did, f⟩
  have hgen := call_prefix_ne_empty (supply ctr)
  rcases f with _ | ⟨fn, fa⟩
  · rcases did with _ | di
    · simp [applyToolCallDelta, MapGet, MapSet, fragTruthyName, fragTruthyArgs, truthyStr,
        jsStrOr, hgen]
    · by_cases hdi : di = "" <;>
        simp [applyToolCallDelta, MapGet, MapSet, fragTruthyName, fragTruthyArgs, truthyStr,
          jsStrOr, hgen, hdi]
  · rcases did with _ | di <;> rcases fn with _ | n <;> rcases fa with _ | ar <;>
      (try by_cases hdi : di = "") <;> (try by_cases hn : n = "") <;>
      (try by_cases har : ar = "") <;>
      simp_all [applyToolCallDelta, MapGet, MapSet, fragTruthyName, fragTruthyArgs, truthyStr,
        jsStrOr, hgen]

theorem applyToolCallDelta_existing (supply : Nat → String) (key : String)
    (tb : ToolCallBuf) (ctr : Nat) (d : ToolCallDelta)
    (hkey : "tool_" ++ toString (d.index.getD 0) = key) (hid : tb.id ≠ "") :
    applyToolCallDelta supply ([(key, tb)], ctr) d =
      ([(key, ⟨tb.id,
          (fragTruthyName d).getD tb.name,
          tb.arguments ++ (fragTruthyArgs d).getD ""⟩)], ctr) := by
  rcases d with ⟨idx, did, f⟩
  simp only at hkey
  rcases f with _ | ⟨fn, fa⟩
  · rcases did with _ | di
    · simp [applyToolCallDelta, hkey, MapGet, MapSet, fragTruthyName, fragTruthyArgs,
        truthyStr, hid]
    · by_cases hdi : di = "" <;>
        simp [applyToolCallDelta, hkey, MapGet, MapSet, fragTruthyName, fragTruthyArgs,
          truthyStr, hid, hdi]
  · rcases did with _ | di <;> rcases fn with _ | n <;> rcases fa with _ | ar <;>
      (try by_cases hdi : di = "") <;> (try by_cases hn : n = "") <;>
      (try by_cases har : ar = "") <;>
      simp_all [applyToolCallDelta, MapGet, MapSet, fragTruthyName, fragTruthyArgs,
        truthyStr]

theorem strFoldl_append (l : List String) :
    ∀ a : String, List.foldl (fun r s => r ++ s) a l =
      a ++ List.foldl (fun r s => r ++ s) "" l := by
  induction l with
  | nil => intro a; simp
  | cons x xs ih =>
    intro a
    simp only [List.foldl_cons]
    rw [ih (a ++ x), ih ("" ++ x)]
    simp [String.empty_append, String.append_assoc]

theorem sJoin_cons (a : String) (l : List String) :
    String.join (a :: l) = a ++ String.join l := by
  simp only [String.join, List.foldl_cons]
  rw [String.empty_append, strFoldl_append l a]

theorem bufFold_single_key (supply : Nat → String) :
    ∀ (frags : List ToolCallDelta) (key : String) (tb : ToolCallBuf) (ctr : Nat),
      tb.id ≠ "" →
      (∀ d ∈ frags, "tool_" ++ toString (d.index.getD 0) = key) →
      frags.foldl (applyToolCallDelta supply) ([(key, tb)], ctr) =
        ([(key, ⟨tb.id,
            ((frags.filterMap fragTruthyName).getLast?).getD tb.name,
            tb.arguments ++ String.join (frags.filterMap fragTruthyArgs)⟩)], ctr) := by
  intro frags
  induction frags with
  | nil =>
    intro key tb ctr hid hk
    simp [String.join]
  | cons d rest ih =>
    intro key tb ctr hid hk
    have hkey : "tool_" ++ toString (d.index.getD 0) = key := hk d (by simp)
    rw [List.foldl_cons, applyToolCallDelta_existing supply key tb ctr d hkey hid]
    rw [ih key ⟨tb.id, (fragTruthyName d).getD tb.name,
        tb.arguments ++ (fragTruthyArgs d).getD ""⟩ ctr hid
      (fun x hx => hk x (by simp [hx]))]
    rcases hfn : fragTruthyName d with _ | n <;> rcases hfa : fragTruthyArgs d with _ | ar <;>
      simp [List.filterMap_cons, hfn, hfa, getLastD_cons, sJoin_cons, String.append_empty,
        String.append_assoc]

/-- C3 amended: fragments at one call index accumulate into a single
buffer entry whose id is fixed at creation from the first fragment (its
truthy id, else a generated identifier, later ids being ignored), whose
name is the last truthy name fragment, and whose arguments are the
concatenation of the truthy argument fragments in arrival order; the
three-fragment spec example accumulates to name get_weather with
arguments parsing to the expected one-field object. -/
theorem tool_call_accumulation :
    (∀ (supply : Nat → String) (i : Nat) (d : ToolCallDelta) (rest : List ToolCallDelta),
        (∀ f ∈ d :: rest, f.index.getD 0 = i) →
        ((d :: rest).foldl (applyToolCallDelta supply) ([], 0)).1 =
          [("tool_" ++ toString i,
            ⟨jsStrOr d.id ("call_" ++ supply 0),
              (((d :: rest).filterMap fragTruthyName).getLast?).getD "",
              String.join ((d :: rest).filterMap fragTruthyArgs)⟩)]) ∧
      ((processChunks ⟨"msg_3", "claude-x", fun _ => "abc"⟩ initialStreamState
            [⟨[⟨⟨none, some [⟨some 0, none, some ⟨some "get_weather", none⟩⟩]⟩, none⟩], none⟩,
             ⟨[⟨⟨none, some [⟨some 0, none, some ⟨none, some "\x7b\"loc"⟩⟩]⟩, none⟩], none⟩,
             ⟨[⟨⟨none, some [⟨some 0, none, some ⟨none, some "\":\"NYC\"\x7d"⟩⟩]⟩, none⟩], none⟩,
             ⟨[⟨⟨none, none⟩, some "stop"⟩], none⟩]).2.toolCallsBuffer =
          [("tool_0", ⟨"call_abc", "get_weather", "\x7b\"loc\":\"NYC\"\x7d"⟩)] ∧
        ClaudeEvent.content_block_start 1 (BlockStartInfo.tool_use "call_abc" "get_weather") ∈
          convertOpenAIStreamToClaude ⟨"msg_3", "claude-x", fun _ => "abc"⟩
            [⟨[⟨⟨none, some [⟨some 0, none, some ⟨some "get_weather", none⟩⟩]⟩, none⟩], none⟩,
             ⟨[⟨⟨none, some [⟨some 0, none, some ⟨none, some "\x7b\"loc"⟩⟩]⟩, none⟩], none⟩,
             ⟨[⟨⟨none, some [⟨some 0, none, some ⟨none, some "\":\"NYC\"\x7d"⟩⟩]⟩, none⟩], none⟩,
             ⟨[⟨⟨none, none⟩, some "stop"⟩], none⟩] ∧
        jsonParse "\x7b\"loc\":\"NYC\"\x7d" = some (Json.obj [("loc", Json.str "NYC")])) := by
  constructor
  · intro supply i d rest hidx
    have hd : d.index.getD 0 = i := hidx d (by simp)
    have hidne : jsStrOr d.id ("call_" ++ supply 0) ≠ "" := by
      unfold jsStrOr
      rcases d.id with _ | di
      · exact call_prefix_ne_empty _
      · by_cases hdi : di = "" <;> simp [hdi]
        exact call_prefix_ne_empty _
    rw [List.foldl_cons, applyToolCallDelta_create supply 0 d, hd]
    rw [bufFold_single_key supply rest ("tool_" ++ toString i)
      ⟨jsStrOr d.id ("call_" ++ supply 0), (fragTruthyName d).getD "",
        (fragTruthyArgs d).getD ""⟩
      (if truthyStr d.id then 0 else 0 + 1) hidne
      (fun x hx => by rw [hidx x (by simp [hx])])]
    rcases hfn : fragTruthyName d with _ | n <;> rcases hfa : fragTruthyArgs d with _ | ar <;>
      simp [List.filterMap_cons, hfn, hfa, getLastD_cons, sJoin_cons, String.append_empty,
        String.empty_append, String.append_assoc]
  · exact ⟨by decide, by decide, rfl⟩

/-- Witness for the amended C3: the general accumulation statement applied
to the three spec fragments. -/
theorem tool_call_accumulation_witness :
    (([⟨some 0, none, some ⟨some "get_weather", none⟩⟩,
        ⟨some 0, none, some ⟨none, some "\x7b\"loc"⟩⟩,
        ⟨some 0, none, some ⟨none, some "\":\"NYC\"\x7d"⟩⟩] : List ToolCallDelta).foldl
        (applyToolCallDelta (fun _ => "abc")) ([], 0)).1 =
      [("tool_" ++ toString 0,
        ⟨jsStrOr none ("call_" ++ (fun (_ : Nat) => "abc") 0),
          ((([⟨some 0, none, some ⟨some "get_weather", none⟩⟩,
              ⟨some 0, none, some ⟨none, some "\x7b\"loc"⟩⟩,
              ⟨some 0, none, some ⟨none, some "\":\"NYC\"\x7d"⟩⟩] :
                List ToolCallDelta).filterMap fragTruthyName).getLast?).getD "",
          String.join (([⟨some 0, none, some ⟨some "get_weather", none⟩⟩,
              ⟨some 0, none, some ⟨none, some "\x7b\"loc"⟩⟩,
              ⟨some 0, none, some ⟨none, some "\":\"NYC\"\x7d"⟩⟩] :
                List ToolCallDelta).filterMap fragTruthyArgs)⟩)] :=
  tool_call_accumulation.1 (fun _ => "abc") 0
    ⟨some 0, none, some ⟨some "get_weather", none⟩⟩
    [⟨some 0, none, some ⟨none, some "\x7b\"loc"⟩⟩,
     ⟨some 0, none, some ⟨none, some "\":\"NYC\"\x7d"⟩⟩]
    (by decide)

/-- C3 counterexample: two name fragments a then b at index 0, the second
also carrying the id real; the final buffer holds name b, not the first
occurrence a, and keeps the generated id, not the later id real. -/
theorem tool_call_accumulation_counterexample :
    (processChunks ⟨"msg_c3", "claude-x", fun _ => "xyz"⟩ initialStreamState
        [⟨[⟨⟨none, some [⟨some 0, none, some ⟨some "a", none⟩⟩]⟩, none⟩], none⟩,
         ⟨[⟨⟨none, some [⟨some 0, some "real", some ⟨some "b", none⟩⟩]⟩, none⟩],
           none⟩]).2.toolCallsBuffer =
      [("tool_0", ⟨"call_xyz", "b", ""⟩)] ∧
      ("b" : String) ≠ "a" ∧ ("call_xyz" : String) ≠ "real" := by decide

/-- Witness for the amended C2 on a concrete finished text stream. -/
theorem stream_event_order_witness :
    checkEventSeq (convertOpenAIStreamToClaude ⟨"msg_w2", "claude-x", fun _ => "r"⟩
        [⟨[⟨⟨some "hi", none⟩, none⟩], none⟩, ⟨[⟨⟨none, none⟩, some "stop"⟩], none⟩]) =
      true :=
  stream_event_order ⟨"msg_w2", "claude-x", fun _ => "r"⟩
    [⟨[⟨⟨some "hi", none⟩, none⟩], none⟩, ⟨[⟨⟨none, none⟩, some "stop"⟩], none⟩]
    (by decide)

/-- C2 counterexample: a chunk sequence with no finish signal produces a
sequence with a message_start but zero message_delta and zero
message_stop events, refuting the unconditional claim. -/
theorem stream_event_order_counterexample :
    checkEventSeq (convertOpenAIStreamToClaude ⟨"msg_c2", "claude-x", fun _ => "r"⟩
        [⟨[⟨⟨some "hello", none⟩, none⟩], none⟩]) = false ∧
      ((convertOpenAIStreamToClaude ⟨"msg_c2", "claude-x", fun _ => "r"⟩
          [⟨[⟨⟨some "hello", none⟩, none⟩], none⟩]).countP
        (fun e => match e with
          | ClaudeEvent.message_delta _ _ _ => true
          | _ => false)) = 0 ∧
      ((convertOpenAIStreamToClaude ⟨"msg_c2", "claude-x", fun _ => "r"⟩
          [⟨[⟨⟨some "hello", none⟩, none⟩], none⟩]).countP
        (fun e => match e with
          | ClaudeEvent.message_stop => true
          | _ => false)) = 0 := by decide

/-- Witness for C9 on a text-only stream finished by the backend reason
stop: the message_delta still reports tool_use. -/
theorem stream_stop_reason_witness :
    (∃ a b, ClaudeEvent.message_delta "tool_use" a b ∈
        convertOpenAIStreamToClaude ⟨"msg_w9", "claude-x", fun _ => "r"⟩
          [⟨[⟨⟨some "hello", none⟩, none⟩], none⟩,
           ⟨[⟨⟨none, none⟩, some "stop"⟩], none⟩]) ∧
      ∀ r a b, ClaudeEvent.message_delta r a b ∈
          convertOpenAIStreamToClaude ⟨"msg_w9", "claude-x", fun _ => "r"⟩
            [⟨[⟨⟨some "hello", none⟩, none⟩], none⟩,
             ⟨[⟨⟨none, none⟩, some "stop"⟩], none⟩] →
        r = "tool_use" :=
  stream_stop_reason_tool_use ⟨"msg_w9", "claude-x", fun _ => "r"⟩
    [⟨[⟨⟨some "hello", none⟩, none⟩], none⟩, ⟨[⟨⟨none, none⟩, some "stop"⟩], none⟩]
    (by decide)
